import Mathlib

/-!
Verification of the session-recording protocol of `cowrie/insults/insults.py`
(`LoggingServerProtocol`): the `dataReceived` byte-limit policy, the
`connectionLost` teardown (stdin capture finalization, redirect draining,
TTY-log close and remote upload), and the `__init__`/`connectionMade`
configuration defaults.  Each Python method is shallowly embedded as a pure
Lean function over an explicit state, with external effects (log events,
writes to capture files, forwarding to the terminal layer) reified as lists
of effect/event values.
-/

namespace Cowrie

/-! ## Model of `dataReceived` (insults.py lines 120-142)

`LoggingServerProtocol.dataReceived(data)` increments `bytesReceived`,
checks the byte limit (a limit of 0 disables the check), and on a trip logs
a message and calls `self.eofReceived()` (which forwards EOF to the terminal
protocol when one is present) and returns.  Otherwise it appends `data` to
the stdin capture file when `stdinlogOpen`, else writes a ttylog INPUT
record when `ttylogEnabled and ttylogOpen`, and finally forwards `data`
when a terminal protocol is present. -/

/-- External effects of one `dataReceived` call: the "Data upload limit
reached" log message, the forwarded EOF (`terminalProtocol.eofReceived()`),
an append to the stdin capture file, a ttylog INPUT record, and the
forwarding of the chunk to the terminal protocol. -/
inductive Effect where
  | limitMsg : Effect
  | eofToTerminal : Effect
  | stdinAppend (data : List Nat) : Effect
  | ttyWriteInput (data : List Nat) : Effect
  | forward (data : List Nat) : Effect
deriving DecidableEq

/-- The per-session fields of `LoggingServerProtocol` read or written by
`dataReceived`.  `terminalProtocol` records whether a live terminal-layer
handle exists. -/
structure ProtoState where
  bytesReceived : Nat
  bytesReceivedLimit : Nat
  stdinlogOpen : Bool
  ttylogEnabled : Bool
  ttylogOpen : Bool
  terminalProtocol : Bool
deriving DecidableEq

/-- `LoggingServerProtocol.dataReceived`, translated line by line: the
counter increment comes first, then the limit check (which returns early),
then the stdin-capture / ttylog-INPUT write, then the forward. -/
def dataReceived (s : ProtoState) (data : List Nat) : ProtoState × List Effect :=
  let s1 : ProtoState := { s with bytesReceived := s.bytesReceived + data.length }
  if s1.bytesReceivedLimit ≠ 0 ∧ s1.bytesReceivedLimit < s1.bytesReceived then
    (s1, Effect.limitMsg ::
      (if s1.terminalProtocol then [Effect.eofToTerminal] else []))
  else
    (s1,
      (if s1.stdinlogOpen then [Effect.stdinAppend data]
       else if s1.ttylogEnabled && s1.ttylogOpen then [Effect.ttyWriteInput data]
       else []) ++
      (if s1.terminalProtocol then [Effect.forward data] else []))

/-- Run a sequence of `dataReceived` calls, collecting all effects in
order. -/
def runData (s : ProtoState) : List (List Nat) → ProtoState × List Effect
  | [] => (s, [])
  | c :: rest =>
    let step := dataReceived s c
    let next := runData step.1 rest
    (next.1, step.2 ++ next.2)

/-- Total length of a list of chunks. -/
def sumLens (xs : List (List Nat)) : Nat := (xs.map List.length).sum

/-- The chunks that pass the limit check when fed in order starting from a
received-byte count `b`: the maximal leading run of chunks whose cumulative
count never exceeds the limit (mirrors the trip condition of
`dataReceived`, including that a limit of 0 never trips). -/
def keptChunks (limit : Nat) : Nat → List (List Nat) → List (List Nat)
  | _, [] => []
  | b, c :: rest =>
    if limit ≠ 0 ∧ limit < b + c.length then []
    else c :: keptChunks limit (b + c.length) rest

/-- Bytes appended to the stdin capture file by a list of effects, in
order. -/
def stdinBytes (es : List Effect) : List Nat :=
  (es.filterMap fun e =>
    match e with
    | Effect.stdinAppend d => some d
    | _ => none).flatten

/-- Payloads of the ttylog INPUT records produced by a list of effects, in
order. -/
def ttyInputs (es : List Effect) : List (List Nat) :=
  es.filterMap fun e =>
    match e with
    | Effect.ttyWriteInput d => some d
    | _ => none

/-- Number of forced-EOF signals delivered to the terminal layer. -/
def countEof (es : List Effect) : Nat :=
  es.count Effect.eofToTerminal

/-- The write/forward effects of one non-tripping `dataReceived` call. -/
def writeEff (s : ProtoState) (data : List Nat) : List Effect :=
  (if s.stdinlogOpen then [Effect.stdinAppend data]
   else if s.ttylogEnabled && s.ttylogOpen then [Effect.ttyWriteInput data]
   else []) ++
  (if s.terminalProtocol then [Effect.forward data] else [])

theorem keptChunks_cons (limit b : Nat) (c : List Nat) (rest : List (List Nat)) :
    keptChunks limit b (c :: rest) =
      if limit ≠ 0 ∧ limit < b + c.length then []
      else c :: keptChunks limit (b + c.length) rest := rfl

theorem dataReceived_fst (s : ProtoState) (data : List Nat) :
    (dataReceived s data).1 =
      { s with bytesReceived := s.bytesReceived + data.length } := by
  unfold dataReceived
  by_cases h :
      ({ s with bytesReceived := s.bytesReceived + data.length } :
        ProtoState).bytesReceivedLimit ≠ 0 ∧
      ({ s with bytesReceived := s.bytesReceived + data.length } :
        ProtoState).bytesReceivedLimit <
      ({ s with bytesReceived := s.bytesReceived + data.length } :
        ProtoState).bytesReceived
  · simp [h]
  · simp [h]

theorem runData_fst (s : ProtoState) (xs : List (List Nat)) :
    (runData s xs).1 =
      { s with bytesReceived := s.bytesReceived + sumLens xs } := by
  induction xs generalizing s with
  | nil => simp [runData, sumLens]
  | cons c rest ih =>
    simp only [runData, ih, dataReceived_fst, sumLens, List.map_cons,
      List.sum_cons]
    congr 1
    omega

theorem runData_append (s : ProtoState) (xs ys : List (List Nat)) :
    runData s (xs ++ ys) =
      ((runData (runData s xs).1 ys).1,
       (runData s xs).2 ++ (runData (runData s xs).1 ys).2) := by
  induction xs generalizing s with
  | nil => simp [runData]
  | cons c rest ih => simp [runData, ih]

/-- Once the counter is past a nonzero limit, every further `dataReceived`
call emits only the limit message and (when the terminal layer is present)
one forced EOF: no capture or transcript writes happen. -/
theorem runData_tripped (s : ProtoState) (xs : List (List Nat))
    (h0 : s.bytesReceivedLimit ≠ 0)
    (hlt : s.bytesReceivedLimit < s.bytesReceived) :
    (runData s xs).2 =
      xs.flatMap fun _ =>
        Effect.limitMsg ::
          (if s.terminalProtocol then [Effect.eofToTerminal] else []) := by
  induction xs generalizing s with
  | nil => simp [runData]
  | cons c rest ih =>
    have htrip : s.bytesReceivedLimit ≠ 0 ∧
        s.bytesReceivedLimit < s.bytesReceived + c.length := by
      constructor
      · exact h0
      · omega
    have hstep : dataReceived s c =
        ({ s with bytesReceived := s.bytesReceived + c.length },
         Effect.limitMsg ::
           (if s.terminalProtocol then [Effect.eofToTerminal] else [])) := by
      unfold dataReceived
      simp [htrip.1, htrip.2]
    have hrec := ih { s with bytesReceived := s.bytesReceived + c.length }
      h0 (by simp; omega)
    simp [runData, hstep, hrec]

/-- As long as the limit never trips, each `dataReceived` call produces
exactly its write/forward effects. -/
theorem runData_kept (s : ProtoState) (xs : List (List Nat))
    (hkeep : keptChunks s.bytesReceivedLimit s.bytesReceived xs = xs) :
    (runData s xs).2 = xs.flatMap (writeEff s) := by
  induction xs generalizing s with
  | nil => simp [runData]
  | cons c rest ih =>
    by_cases htrip : s.bytesReceivedLimit ≠ 0 ∧
        s.bytesReceivedLimit < s.bytesReceived + c.length
    · exfalso
      have : keptChunks s.bytesReceivedLimit s.bytesReceived (c :: rest) = [] := by
        unfold keptChunks
        simp [htrip]
      rw [hkeep] at this
      exact List.noConfusion this
    · have hkeep2 : keptChunks s.bytesReceivedLimit
          (s.bytesReceived + c.length) rest = rest := by
        unfold keptChunks at hkeep
        simp only [htrip, if_false] at hkeep
        exact (List.cons.inj hkeep).2
      have hstep : dataReceived s c =
          ({ s with bytesReceived := s.bytesReceived + c.length },
           writeEff s c) := by
        unfold dataReceived writeEff
        simp [htrip]
      have hrec := ih { s with bytesReceived := s.bytesReceived + c.length }
        (by simpa using hkeep2)
      have hwf : writeEff { s with bytesReceived := s.bytesReceived + c.length }
          = writeEff s := by
        unfold writeEff
        rfl
      rw [hwf] at hrec
      simp [runData, hstep, hrec]

/-- Normal form of a run under a nonzero limit: the kept leading chunks
each contribute their write/forward effects; the tripping call and every
later call contribute only the limit message and the forced EOF. -/
theorem runData_split (s : ProtoState) (xs : List (List Nat))
    (hlim : s.bytesReceivedLimit ≠ 0) :
    (runData s xs).2 =
      (keptChunks s.bytesReceivedLimit s.bytesReceived xs).flatMap (writeEff s)
      ++ (xs.drop
            (keptChunks s.bytesReceivedLimit s.bytesReceived xs).length).flatMap
          (fun _ =>
            Effect.limitMsg ::
              (if s.terminalProtocol then [Effect.eofToTerminal] else [])) := by
  induction xs generalizing s with
  | nil => simp [runData, keptChunks]
  | cons c rest ih =>
    by_cases htrip : s.bytesReceivedLimit ≠ 0 ∧
        s.bytesReceivedLimit < s.bytesReceived + c.length
    · have hkz : keptChunks s.bytesReceivedLimit s.bytesReceived (c :: rest)
          = [] := by
        unfold keptChunks
        simp [htrip]
      have hstep : dataReceived s c =
          ({ s with bytesReceived := s.bytesReceived + c.length },
           Effect.limitMsg ::
             (if s.terminalProtocol then [Effect.eofToTerminal] else [])) := by
        unfold dataReceived
        simp [htrip.1, htrip.2]
      have hrest := runData_tripped
        { s with bytesReceived := s.bytesReceived + c.length } rest
        hlim (by simp; omega)
      simp [runData, hstep, hrest, hkz]
    · have hkz : keptChunks s.bytesReceivedLimit s.bytesReceived (c :: rest)
          = c :: keptChunks s.bytesReceivedLimit
              (s.bytesReceived + c.length) rest := by
        rw [keptChunks_cons, if_neg htrip]
      have hstep : dataReceived s c =
          ({ s with bytesReceived := s.bytesReceived + c.length },
           writeEff s c) := by
        unfold dataReceived writeEff
        simp [htrip]
      have hrec := ih { s with bytesReceived := s.bytesReceived + c.length }
        hlim
      have hwf : writeEff { s with bytesReceived := s.bytesReceived + c.length }
          = writeEff s := rfl
      rw [hwf] at hrec
      simp [runData, hstep, hrec, hkz]

theorem keptChunks_limit_zero (b : Nat) (xs : List (List Nat)) :
    keptChunks 0 b xs = xs := by
  induction xs generalizing b with
  | nil => rfl
  | cons c rest ih =>
    unfold keptChunks
    simp [ih]

theorem keptChunks_of_total_le (limit b : Nat) (xs : List (List Nat))
    (h : b + sumLens xs ≤ limit) : keptChunks limit b xs = xs := by
  induction xs generalizing b with
  | nil => rfl
  | cons c rest ih =>
    unfold keptChunks
    have h1 : ¬(limit ≠ 0 ∧ limit < b + c.length) := by
      simp only [sumLens, List.map_cons, List.sum_cons] at h
      intro hc
      omega
    have h2 : b + c.length + sumLens rest ≤ limit := by
      simp only [sumLens, List.map_cons, List.sum_cons] at h
      simp only [sumLens]
      omega
    simp [h1, ih _ h2]

theorem stdinBytes_append (a b : List Effect) :
    stdinBytes (a ++ b) = stdinBytes a ++ stdinBytes b := by
  simp [stdinBytes, List.filterMap_append]

theorem ttyInputs_append (a b : List Effect) :
    ttyInputs (a ++ b) = ttyInputs a ++ ttyInputs b := by
  simp [ttyInputs, List.filterMap_append]

theorem countEof_append (a b : List Effect) :
    countEof (a ++ b) = countEof a + countEof b := by
  simp [countEof, List.count_append]

theorem stdinBytes_writeEff (s : ProtoState) (c : List Nat)
    (h : s.stdinlogOpen = true) : stdinBytes (writeEff s c) = c := by
  unfold writeEff
  rw [h]
  cases s.terminalProtocol <;> simp [stdinBytes]

theorem ttyInputs_writeEff (s : ProtoState) (c : List Nat)
    (h1 : s.stdinlogOpen = false)
    (h2 : (s.ttylogEnabled && s.ttylogOpen) = true) :
    ttyInputs (writeEff s c) = [c] := by
  unfold writeEff
  rw [h1, h2]
  cases s.terminalProtocol <;> simp [ttyInputs]

theorem countEof_writeEff (s : ProtoState) (c : List Nat) :
    countEof (writeEff s c) = 0 := by
  unfold writeEff
  cases h1 : s.stdinlogOpen <;>
    cases h2 : s.ttylogEnabled && s.ttylogOpen <;>
      cases h3 : s.terminalProtocol <;> simp [countEof]

theorem stdinBytes_flatMap_writeEff (s : ProtoState) (xs : List (List Nat))
    (h : s.stdinlogOpen = true) :
    stdinBytes (xs.flatMap (writeEff s)) = xs.flatten := by
  induction xs with
  | nil => simp [stdinBytes]
  | cons c rest ih =>
    simp [List.flatMap_cons, stdinBytes_append, stdinBytes_writeEff s c h, ih]

theorem ttyInputs_flatMap_writeEff (s : ProtoState) (xs : List (List Nat))
    (h1 : s.stdinlogOpen = false)
    (h2 : (s.ttylogEnabled && s.ttylogOpen) = true) :
    ttyInputs (xs.flatMap (writeEff s)) = xs := by
  induction xs with
  | nil => simp [ttyInputs]
  | cons c rest ih =>
    simp [List.flatMap_cons, ttyInputs_append, ttyInputs_writeEff s c h1 h2, ih]

theorem countEof_flatMap_writeEff (s : ProtoState) (xs : List (List Nat)) :
    countEof (xs.flatMap (writeEff s)) = 0 := by
  induction xs with
  | nil => simp [countEof]
  | cons c rest ih =>
    simp [List.flatMap_cons, countEof_append, countEof_writeEff, ih]

theorem stdinBytes_flatMap_trip (t : Bool) (xs : List (List Nat)) :
    stdinBytes (xs.flatMap fun _ =>
      Effect.limitMsg :: (if t then [Effect.eofToTerminal] else [])) = [] := by
  have h1 : stdinBytes
      (Effect.limitMsg :: (if t then [Effect.eofToTerminal] else [])) = [] := by
    cases t <;> rfl
  induction xs with
  | nil => simp [stdinBytes]
  | cons c rest ih =>
    rw [List.flatMap_cons, stdinBytes_append, h1, ih]
    rfl

theorem ttyInputs_flatMap_trip (t : Bool) (xs : List (List Nat)) :
    ttyInputs (xs.flatMap fun _ =>
      Effect.limitMsg :: (if t then [Effect.eofToTerminal] else [])) = [] := by
  have h1 : ttyInputs
      (Effect.limitMsg :: (if t then [Effect.eofToTerminal] else [])) = [] := by
    cases t <;> rfl
  induction xs with
  | nil => simp [ttyInputs]
  | cons c rest ih =>
    rw [List.flatMap_cons, ttyInputs_append, h1, ih]
    rfl

theorem countEof_flatMap_trip (xs : List (List Nat)) :
    countEof (xs.flatMap fun _ =>
      Effect.limitMsg :: [Effect.eofToTerminal]) = xs.length := by
  induction xs with
  | nil => simp [countEof]
  | cons c rest ih =>
    simp_all [List.flatMap_cons, countEof_append, countEof]

theorem sumLens_append (a b : List (List Nat)) :
    sumLens (a ++ b) = sumLens a + sumLens b := by
  simp [sumLens]

/-! ## Model of `connectionLost` (insults.py lines 160-239)

The teardown works on the filesystem (the stdin capture file, the redirect
files, and the digest-named artifact files under `downloadPath`), emits log
events, and may let a non-`ResponseError` exception from the minio upload
escape.  The filesystem is an association list from paths to byte contents;
`hashlib.sha256(...).hexdigest()` is modelled as an abstract injective map
from content to a digest string. -/

/-- A filesystem: a finite map from path to file content. -/
abbrev FS := List (String × List Nat)

/-- Content of a path, `none` when the path does not exist. -/
def FS.lookup : FS → String → Option (List Nat)
  | [], _ => none
  | (p, c) :: rest, q => if p = q then some c else FS.lookup rest q

/-- `os.path.exists`. -/
def pathExists (fs : FS) (p : String) : Bool :=
  (FS.lookup fs p).isSome

/-- `os.remove`. -/
def FS.erase : FS → String → FS
  | [], _ => []
  | (a, c) :: rest, p =>
    if a = p then FS.erase rest p else (a, c) :: FS.erase rest p

/-- Create/overwrite a file (the destination side of `os.rename`). -/
def FS.write (fs : FS) (p : String) (c : List Nat) : FS :=
  (p, c) :: FS.erase fs p

/-- `os.path.join`. -/
def pathJoin (dir file : String) : String := dir ++ "/" ++ file

/-- Models `hashlib.sha256(content).hexdigest()`: an abstract injective map
from file content to a digest string (collision-freedom is the standing
assumption behind the content-addressed store). -/
def sha256hex (content : List Nat) : String :=
  "h" ++ String.intercalate "x" (content.map Nat.repr)

/-- Observability events emitted during `connectionLost`. -/
inductive Event where
  | duplicateNotice (shasum : String) : Event
  | fileDownload (url outfile shasum : String) : Event
  | logClosed (ttylog : String) (size : Nat) : Event
  | logUploaded (ttylog : String) : Event
deriving DecidableEq

/-- The fields of `LoggingServerProtocol` read or written by
`connectionLost`, together with the relevant slice of the filesystem. -/
structure CLState where
  stdinlogOpen : Bool
  stdinlogFile : String
  downloadPath : String
  redirFiles : List (String × Option String)
  ttylogEnabled : Bool
  ttylogOpen : Bool
  ttylogFile : String
  ttylogSize : Nat
  minioEnabled : Bool
  fs : FS
deriving DecidableEq

/-- Whether the `fput_object` call succeeds, raises the caught
`minio.error.ResponseError`, or raises any other exception. -/
inductive UploadOutcome where
  | ok : UploadOutcome
  | responseError : UploadOutcome
  | otherError : UploadOutcome
deriving DecidableEq

/-- Result of one `connectionLost` call: the final attribute/filesystem
state, the events emitted in order, and whether an exception escaped the
method (only possible from the minio upload, whose `except` clause catches
nothing but `ResponseError`). -/
structure CLResult where
  state : CLState
  events : List Event
  raised : Bool
deriving DecidableEq

/-- The stdin-capture block (insults.py lines 165-184).  Opening a missing
file raises `IOError`, which is caught; `finally` clears `stdinlogOpen`
either way (reflected by the caller always clearing the flag).  Note the
`cowrie.session.file_download` log call sits after the `with` block, inside
the `try`, so it runs in the duplicate branch as well, and there is no
zero-length check on the stdin capture file. -/
def stdinStep (s : CLState) : FS × List Event :=
  if s.stdinlogOpen then
    match FS.lookup s.fs s.stdinlogFile with
    | none => (s.fs, [])
    | some content =>
      let shasum := sha256hex content
      let shasumfile := pathJoin s.downloadPath shasum
      if pathExists s.fs shasumfile then
        (FS.erase s.fs s.stdinlogFile,
         [Event.duplicateNotice shasum,
          Event.fileDownload "stdin" shasumfile shasum])
      else
        (FS.write (FS.erase s.fs s.stdinlogFile) shasumfile content,
         [Event.fileDownload "stdin" shasumfile shasum])
  else (s.fs, [])

/-- Does `needle` occur at the head of `hay`? -/
def headMatches : List Char → List Char → Bool
  | _, [] => true
  | [], _ :: _ => false
  | c :: cs, d :: ds => c = d && headMatches cs ds

/-- Index of the first occurrence of `needle` in `hay`
(Python `str.find`, with `none` for -1). -/
def findSub : List Char → List Char → Option Nat
  | [], needle => if needle.isEmpty then some 0 else none
  | c :: cs, needle =>
    if headMatches (c :: cs) needle then some 0
    else (findSub cs needle).map (· + 1)

/-- `rf[rf.find('redir_')+len('redir_'):]` — Python `find` returns -1 when
absent, so the slice then starts at index 5. -/
def redirUrl (rf : String) : String :=
  let cs := rf.toList
  let start :=
    match findSub cs ("redir_".toList) with
    | some i => i + 6
    | none => 5
  String.mk (cs.drop start)

/-- Finalization of one redirect entry (insults.py lines 187-219): derive
the url (`rp[1]` when truthy, else from the path), skip missing files,
delete zero-length files, then deduplicate by digest.  As in the stdin
block, the `file_download` log call also runs in the duplicate branch. -/
def redirFinalize (dp : String) (fs : FS) :
    String × Option String → FS × List Event
  | (rf, urlOpt) =>
  let url :=
    match urlOpt with
    | some u => if u = "" then redirUrl rf else u
    | none => redirUrl rf
  match FS.lookup fs rf with
  | none => (fs, [])
  | some content =>
    if content.length = 0 then (FS.erase fs rf, [])
    else
      let shasum := sha256hex content
      let shasumfile := pathJoin dp shasum
      if pathExists fs shasumfile then
        (FS.erase fs rf,
         [Event.duplicateNotice shasum,
          Event.fileDownload url shasumfile shasum])
      else
        (FS.write (FS.erase fs rf) shasumfile content,
         [Event.fileDownload url shasumfile shasum])

/-- The redirect loop; afterwards the caller clears `redirFiles`. -/
def redirDrain (dp : String) (fs : FS) :
    List (String × Option String) → FS × List Event
  | [] => (fs, [])
  | rp :: rest =>
    let step := redirFinalize dp fs rp
    let next := redirDrain dp step.1 rest
    (next.1, step.2 ++ next.2)

/-- The ttylog block (insults.py lines 222-237): emit `cowrie.log.closed`,
close the ttylog, clear `ttylogOpen`, then upload when minio is enabled.
Only `ResponseError` is caught; any other upload failure escapes.  Returns
the new `ttylogOpen` flag, the events, and whether an exception escaped. -/
def ttyStep (en op minio : Bool) (file : String) (size : Nat)
    (upload : UploadOutcome) : Bool × List Event × Bool :=
  if en && op then
    if minio then
      match upload with
      | UploadOutcome.ok =>
        (false, [Event.logClosed file size, Event.logUploaded file], false)
      | UploadOutcome.responseError =>
        (false, [Event.logClosed file size], false)
      | UploadOutcome.otherError =>
        (false, [Event.logClosed file size], true)
    else (false, [Event.logClosed file size], false)
  else (op, [], false)

/-- `LoggingServerProtocol.connectionLost`: the stdin block, the redirect
loop (after which `redirFiles` is cleared), and the ttylog block, in source
order.  `upload` is the outcome the minio client would produce if called. -/
def connectionLost (s : CLState) (upload : UploadOutcome) : CLResult :=
  let st := stdinStep s
  let rd := redirDrain s.downloadPath st.1 s.redirFiles
  let tt := ttyStep s.ttylogEnabled s.ttylogOpen s.minioEnabled
    s.ttylogFile s.ttylogSize upload
  { state :=
      { s with stdinlogOpen := false, redirFiles := [],
               ttylogOpen := tt.1, fs := rd.1 },
    events := st.2 ++ rd.2 ++ tt.2.1,
    raised := tt.2.2 }

/-! ## Model of `__init__` and `connectionMade` (insults.py lines 32-105) -/

/-- `try: self.ttylogEnabled = cfg.getboolean('honeypot', 'ttylog')
except: self.ttylogEnabled = True` — `none` models an absent or unparsable
option (the `getboolean` call raising). -/
def ttylogEnabledInit (o : Option Bool) : Bool := o.getD true

/-- The results of the six minio configuration reads and of the `Minio`
client construction attempted in `__init__`; `none` models that step
raising. -/
structure MinioReads where
  minio : Option Bool
  server : Option String
  accessKey : Option String
  secret : Option String
  bucket : Option String
  useSsl : Option Bool
  clientBuilt : Option Unit
deriving DecidableEq

/-- The `try`/`except` around the minio setup: `minioEnabled` gets the
configured boolean only when every read and the client construction
succeed; any raise lands in the bare `except`, which sets it to `False`. -/
def initMinioEnabled (r : MinioReads) : Bool :=
  match r.minio with
  | none => false
  | some m =>
    match r.server with
    | none => false
    | some _ =>
      match r.accessKey with
      | none => false
      | some _ =>
        match r.secret with
        | none => false
        | some _ =>
          match r.bucket with
          | none => false
          | some _ =>
            match r.useSsl with
            | none => false
            | some _ =>
              match r.clientBuilt with
              | none => false
              | some _ => m

/-- The flags established by `connectionMade`: the ttylog is opened (with a
`cowrie.log.open` event) iff `ttylogEnabled`, and stdin capture is switched
on iff the session type is 'e' (exec). -/
structure MadeState where
  ttylogOpen : Bool
  stdinlogOpen : Bool
  logOpenEmitted : Bool
deriving DecidableEq

/-- `LoggingServerProtocol.connectionMade` (insults.py lines 79-105). -/
def connectionMade (ttylogEnabled : Bool) (ty : Char) : MadeState :=
  if ttylogEnabled then
    { ttylogOpen := true, stdinlogOpen := ty = 'e', logOpenEmitted := true }
  else
    { ttylogOpen := false, stdinlogOpen := ty = 'e', logOpenEmitted := false }

/-! ## Filesystem and teardown-step lemmas -/

theorem FS.lookup_erase (fs : FS) (p q : String) :
    FS.lookup (FS.erase fs p) q = if p = q then none else FS.lookup fs q := by
  induction fs with
  | nil => by_cases h : p = q <;> simp [FS.erase, FS.lookup, h]
  | cons e rest ih =>
    obtain ⟨a, c⟩ := e
    by_cases hap : a = p
    · subst hap
      by_cases haq : a = q
      · subst haq
        simp [FS.erase, FS.lookup, ih]
      · simp [FS.erase, FS.lookup, haq, ih]
    · by_cases haq : a = q
      · subst haq
        have hpq : ¬p = a := fun h => hap h.symm
        simp [FS.erase, FS.lookup, hap, hpq]
      · simp [FS.erase, FS.lookup, hap, haq, ih]

theorem FS.lookup_write (fs : FS) (p : String) (c : List Nat) (q : String) :
    FS.lookup (FS.write fs p c) q = if p = q then some c else FS.lookup fs q := by
  by_cases h : p = q <;> simp [FS.write, FS.lookup, FS.lookup_erase, h]

theorem stdinStep_closed (s : CLState) (h : s.stdinlogOpen = false) :
    stdinStep s = (s.fs, []) := by
  unfold stdinStep
  rw [h]
  simp

theorem stdinStep_missing (s : CLState) (h1 : s.stdinlogOpen = true)
    (h2 : FS.lookup s.fs s.stdinlogFile = none) :
    stdinStep s = (s.fs, []) := by
  unfold stdinStep
  rw [h1, h2]
  simp

theorem stdinStep_dup (s : CLState) (c : List Nat)
    (h1 : s.stdinlogOpen = true)
    (h2 : FS.lookup s.fs s.stdinlogFile = some c)
    (h3 : pathExists s.fs (pathJoin s.downloadPath (sha256hex c)) = true) :
    stdinStep s =
      (FS.erase s.fs s.stdinlogFile,
       [Event.duplicateNotice (sha256hex c),
        Event.fileDownload "stdin" (pathJoin s.downloadPath (sha256hex c))
          (sha256hex c)]) := by
  unfold stdinStep
  rw [h1, h2]
  simp [h3]

theorem stdinStep_new (s : CLState) (c : List Nat)
    (h1 : s.stdinlogOpen = true)
    (h2 : FS.lookup s.fs s.stdinlogFile = some c)
    (h3 : pathExists s.fs (pathJoin s.downloadPath (sha256hex c)) = false) :
    stdinStep s =
      (FS.write (FS.erase s.fs s.stdinlogFile)
        (pathJoin s.downloadPath (sha256hex c)) c,
       [Event.fileDownload "stdin" (pathJoin s.downloadPath (sha256hex c))
          (sha256hex c)]) := by
  unfold stdinStep
  rw [h1, h2]
  simp [h3]

theorem redirFinalize_zero (dp : String) (fs : FS) (rf u : String)
    (h1 : FS.lookup fs rf = some []) :
    redirFinalize dp fs (rf, some u) = (FS.erase fs rf, []) := by
  simp only [redirFinalize]
  rw [h1]
  simp

theorem redirFinalize_dup (dp : String) (fs : FS) (rf u : String)
    (c : List Nat)
    (h1 : FS.lookup fs rf = some c)
    (h2 : u ≠ "")
    (h3 : c.length ≠ 0)
    (h4 : pathExists fs (pathJoin dp (sha256hex c)) = true) :
    redirFinalize dp fs (rf, some u) =
      (FS.erase fs rf,
       [Event.duplicateNotice (sha256hex c),
        Event.fileDownload u (pathJoin dp (sha256hex c)) (sha256hex c)]) := by
  simp only [redirFinalize]
  rw [h1]
  simp [h2, h3, h4]

theorem ttyStep_off (en op minio : Bool) (f : String) (sz : Nat)
    (u : UploadOutcome) (h : (en && op) = false) :
    ttyStep en op minio f sz u = (op, [], false) := by
  unfold ttyStep
  rw [h]
  simp

/-! ## Claims C3, C8, C9: teardown idempotence, upload failures, defaults -/

/-- C3 (confirmed): a second `connectionLost` invocation, after a first one
(with any upload outcome), performs no finalization at all: it leaves the
state (including the filesystem) unchanged, emits no events, and raises
nothing — the first invocation clears `stdinlogOpen`, empties
`redirFiles`, and clears `ttylogOpen` whenever the ttylog block ran. -/
theorem claim_C3 (s : CLState) (u u2 : UploadOutcome) :
    connectionLost (connectionLost s u).state u2 =
      { state := (connectionLost s u).state, events := [], raised := false } := by
  obtain ⟨so, sf, dp, rfs, te, top, tf, ts, me, fs⟩ := s
  cases so <;> cases te <;> cases top <;> cases me <;> cases u <;> cases u2 <;> rfl

/-- C8, counterexample: with the ttylog open and minio enabled, an upload
failure that is not a `ResponseError` escapes `connectionLost` (the
`except ResponseError` clause does not catch it), contrary to the claim
that upload failures are suppressed regardless of kind. -/
theorem claim_C8_cex :
    (connectionLost
      { stdinlogOpen := false, stdinlogFile := "sl", downloadPath := "dl",
        redirFiles := [], ttylogEnabled := true, ttylogOpen := true,
        ttylogFile := "tl", ttylogSize := 0, minioEnabled := true, fs := [] }
      UploadOutcome.otherError).raised = true := by rfl

/-- C8 (amended): upload failures of the caught `ResponseError` kind (and
successful uploads) never propagate out of `connectionLost`; a failure of
any other kind propagates exactly when the upload is actually attempted
(transcript logging enabled and open, minio enabled). -/
theorem claim_C8 (s : CLState) :
    (connectionLost s UploadOutcome.ok).raised = false ∧
    (connectionLost s UploadOutcome.responseError).raised = false ∧
    ((connectionLost s UploadOutcome.otherError).raised =
      (s.ttylogEnabled && s.ttylogOpen && s.minioEnabled)) := by
  obtain ⟨so, sf, dp, rfs, te, top, tf, ts, me, fs⟩ := s
  cases te <;> cases top <;> cases me <;> exact ⟨rfl, rfl, rfl⟩

/-- C9 (confirmed): when the `honeypot.ttylog` option is absent or
unparsable (the `getboolean` call raises, modelled by `none`), the
constructor defaults `ttylogEnabled` to `True`, and `connectionMade`
therefore opens a transcript (and emits `cowrie.log.open`) for either
session type. -/
theorem claim_C9 (ty : Char) :
    ttylogEnabledInit none = true ∧
    (connectionMade (ttylogEnabledInit none) ty).ttylogOpen = true ∧
    (connectionMade (ttylogEnabledInit none) ty).logOpenEmitted = true :=
  ⟨rfl, rfl, rfl⟩

/-! ## Claims C1, C2, C6, C7: the `dataReceived` byte-limit policy -/

/-- C1, counterexample: with a limit of 1 byte and stdin capture active, a
single 2-byte chunk trips the limit, and — contrary to the claim that the
append happens before the limit check — the capture file receives nothing:
the limit check precedes the append in `dataReceived`. -/
theorem claim_C1_cex :
    stdinBytes (runData
      { bytesReceived := 0, bytesReceivedLimit := 1, stdinlogOpen := true,
        ttylogEnabled := false, ttylogOpen := false, terminalProtocol := true }
      [[7, 7]]).2 = [] ∧ ([7, 7] : List Nat) ≠ [] := by decide

/-- C1 (amended): with stdin capture active and a nonzero configured byte
limit, the capture file's contents equal the in-order concatenation of the
chunks passed to `dataReceived` strictly before the chunk that trips the
limit — the limit check happens before the append, so the tripping chunk
(and every later chunk) is not captured. -/
theorem claim_C1 (s : ProtoState) (xs : List (List Nat))
    (hstdin : s.stdinlogOpen = true)
    (hlim : s.bytesReceivedLimit ≠ 0) :
    stdinBytes (runData s xs).2 =
      (keptChunks s.bytesReceivedLimit s.bytesReceived xs).flatten := by
  rw [runData_split s xs hlim, stdinBytes_append,
    stdinBytes_flatMap_writeEff s _ hstdin, stdinBytes_flatMap_trip]
  simp

/-- C1, witness: limit 3, chunks [1,2], [3,4], [5] — the second chunk
trips, so exactly the first chunk is captured. -/
theorem claim_C1_witness :
    stdinBytes (runData
      { bytesReceived := 0, bytesReceivedLimit := 3, stdinlogOpen := true,
        ttylogEnabled := false, ttylogOpen := false, terminalProtocol := true }
      [[1, 2], [3, 4], [5]]).2 = [1, 2] := by
  have h := claim_C1
    { bytesReceived := 0, bytesReceivedLimit := 3, stdinlogOpen := true,
      ttylogEnabled := false, ttylogOpen := false, terminalProtocol := true }
    [[1, 2], [3, 4], [5]] rfl (by decide)
  rw [h]
  decide

/-- C2, counterexample: limit 1, chunks of 2 then 1 bytes — the forced-EOF
signal reaches the terminal layer twice, not exactly once: `dataReceived`
has no sticky trip flag, so every post-trip call re-fires `eofReceived`. -/
theorem claim_C2_cex :
    countEof (runData
      { bytesReceived := 0, bytesReceivedLimit := 1, stdinlogOpen := true,
        ttylogEnabled := false, ttylogOpen := false, terminalProtocol := true }
      [[1, 1], [2]]).2 = 2 ∧ (2 : Nat) ≠ 1 := by decide

/-- C2 (amended): with a nonzero limit and a live terminal layer, the
forced-EOF signal is forwarded once per `dataReceived` call from the
tripping call onward (once for each call past the kept leading chunks —
not exactly once per session), and no call at or after the trip writes to
the stdin capture file or appends a transcript INPUT record: all capture
and transcript writes come from the pre-trip kept chunks. -/
theorem claim_C2 (s : ProtoState) (xs : List (List Nat))
    (hterm : s.terminalProtocol = true)
    (hlim : s.bytesReceivedLimit ≠ 0) :
    countEof (runData s xs).2 =
      (xs.drop
        (keptChunks s.bytesReceivedLimit s.bytesReceived xs).length).length
    ∧ stdinBytes (runData s xs).2 =
        stdinBytes ((keptChunks s.bytesReceivedLimit s.bytesReceived
          xs).flatMap (writeEff s))
    ∧ ttyInputs (runData s xs).2 =
        ttyInputs ((keptChunks s.bytesReceivedLimit s.bytesReceived
          xs).flatMap (writeEff s)) := by
  rw [runData_split s xs hlim, hterm]
  refine ⟨?_, ?_, ?_⟩
  · rw [countEof_append, countEof_flatMap_writeEff]
    simp only [if_true]
    rw [countEof_flatMap_trip]
    omega
  · rw [stdinBytes_append, stdinBytes_flatMap_trip]
    simp
  · rw [ttyInputs_append, ttyInputs_flatMap_trip]
    simp

/-- C2, witness: limit 2, chunks [9], [8, 8], [7] — the second chunk trips,
two forced-EOF signals fire (second and third calls), and only the first
chunk is written. -/
theorem claim_C2_witness :
    countEof (runData
      { bytesReceived := 0, bytesReceivedLimit := 2, stdinlogOpen := true,
        ttylogEnabled := false, ttylogOpen := false, terminalProtocol := true }
      [[9], [8, 8], [7]]).2 = 2 := by
  have h := claim_C2
    { bytesReceived := 0, bytesReceivedLimit := 2, stdinlogOpen := true,
      ttylogEnabled := false, ttylogOpen := false, terminalProtocol := true }
    [[9], [8, 8], [7]] rfl (by decide)
  rw [h.1]
  decide

/-- C6 (confirmed): with transcript logging enabled and open, stdin capture
inactive, and the limit never tripping over the whole sequence (limit 0, or
total bytes within the limit), the INPUT record payloads are exactly the
chunks in arrival order, and their concatenation equals the bytes
received. -/
theorem claim_C6 (s : ProtoState) (xs : List (List Nat))
    (h1 : s.stdinlogOpen = false)
    (h2 : s.ttylogEnabled = true) (h3 : s.ttylogOpen = true)
    (hnotrip : s.bytesReceivedLimit = 0 ∨
      s.bytesReceived + sumLens xs ≤ s.bytesReceivedLimit) :
    ttyInputs (runData s xs).2 = xs ∧
    (ttyInputs (runData s xs).2).flatten = xs.flatten := by
  have h23 : (s.ttylogEnabled && s.ttylogOpen) = true := by
    rw [h2, h3]
    rfl
  have hkeep : keptChunks s.bytesReceivedLimit s.bytesReceived xs = xs := by
    rcases hnotrip with h | h
    · rw [h]
      exact keptChunks_limit_zero _ _
    · exact keptChunks_of_total_le _ _ _ h
  rw [runData_kept s xs hkeep, ttyInputs_flatMap_writeEff s xs h1 h23]
  exact ⟨rfl, rfl⟩

/-- C6, witness: limit 10, interactive session receiving "ls\n" as two
chunks — the INPUT records are exactly those chunks. -/
theorem claim_C6_witness :
    ttyInputs (runData
      { bytesReceived := 0, bytesReceivedLimit := 10, stdinlogOpen := false,
        ttylogEnabled := true, ttylogOpen := true, terminalProtocol := true }
      [[108, 115], [10]]).2 = [[108, 115], [10]] := by
  have h := claim_C6
    { bytesReceived := 0, bytesReceivedLimit := 10, stdinlogOpen := false,
      ttylogEnabled := true, ttylogOpen := true, terminalProtocol := true }
    [[108, 115], [10]] rfl rfl rfl (Or.inr (by decide))
  exact h.1

/-- C7, counterexample: limit 1, one 2-byte chunk — `bytesReceived` ends at
2, strictly above the limit: the counter is not capped by the configured
limit (the increment always happens and nothing ever clamps it). -/
theorem claim_C7_cex :
    (runData
      { bytesReceived := 0, bytesReceivedLimit := 1, stdinlogOpen := true,
        ttylogEnabled := false, ttylogOpen := false, terminalProtocol := true }
      [[0, 0]]).1.bytesReceived = 2 ∧ ¬((2 : Nat) ≤ 1) := by decide

/-- C7 (amended): `bytesReceived` is monotonically non-decreasing across
`dataReceived` calls — after any leading slice of the calls it is at most
its final value — and it is not capped: it always ends at the starting
count plus the total length of all chunks, including bytes in and after
the call that trips the limit (a limit of 0 merely disables the trip
check). -/
theorem claim_C7 (s : ProtoState) (xs : List (List Nat)) :
    (runData s xs).1.bytesReceived = s.bytesReceived + sumLens xs ∧
    ∀ n, (runData s (xs.take n)).1.bytesReceived ≤
      (runData s xs).1.bytesReceived := by
  constructor
  · rw [runData_fst]
  · intro n
    rw [runData_fst, runData_fst]
    have hsplit : sumLens (xs.take n) + sumLens (xs.drop n) = sumLens xs := by
      rw [← sumLens_append, List.take_append_drop]
    simp only []
    omega

/-! ## Claims C4, C5, C10: artifact finalization and minio defaults -/

theorem connectionLost_eq (s : CLState) (u : UploadOutcome) :
    connectionLost s u =
      { state :=
          { s with
            stdinlogOpen := false,
            redirFiles := [],
            ttylogOpen := (ttyStep s.ttylogEnabled s.ttylogOpen s.minioEnabled
              s.ttylogFile s.ttylogSize u).1,
            fs := (redirDrain s.downloadPath (stdinStep s).1 s.redirFiles).1 },
        events := (stdinStep s).2
          ++ (redirDrain s.downloadPath (stdinStep s).1 s.redirFiles).2
          ++ (ttyStep s.ttylogEnabled s.ttylogOpen s.minioEnabled
                s.ttylogFile s.ttylogSize u).2.1,
        raised := (ttyStep s.ttylogEnabled s.ttylogOpen s.minioEnabled
          s.ttylogFile s.ttylogSize u).2.2 } := rfl

theorem redirDrain_nil (dp : String) (fs : FS) : redirDrain dp fs [] = (fs, []) :=
  rfl

theorem redirDrain_cons (dp : String) (fs : FS) (rp : String × Option String)
    (rest : List (String × Option String)) :
    redirDrain dp fs (rp :: rest) =
      ((redirDrain dp (redirFinalize dp fs rp).1 rest).1,
       (redirFinalize dp fs rp).2
         ++ (redirDrain dp (redirFinalize dp fs rp).1 rest).2) := rfl

theorem logUploaded_notin_stdinStep (s : CLState) (p : String) :
    Event.logUploaded p ∉ (stdinStep s).2 := by
  unfold stdinStep
  split
  · split
    · simp
    · dsimp only
      split <;> simp
  · simp

theorem logUploaded_notin_redirFinalize (dp : String) (fs : FS)
    (rp : String × Option String) (p : String) :
    Event.logUploaded p ∉ (redirFinalize dp fs rp).2 := by
  obtain ⟨rf, uo⟩ := rp
  simp only [redirFinalize]
  split
  · simp
  · split
    · simp
    · split <;> simp

theorem logUploaded_notin_redirDrain (dp : String) (fs : FS)
    (rps : List (String × Option String)) (p : String) :
    Event.logUploaded p ∉ (redirDrain dp fs rps).2 := by
  induction rps generalizing fs with
  | nil => simp [redirDrain]
  | cons rp rest ih =>
    rw [redirDrain_cons]
    intro h
    rcases List.mem_append.mp h with h | h
    · exact logUploaded_notin_redirFinalize dp fs rp p h
    · exact ih _ h

theorem ttyStep_minio_false (en op : Bool) (f : String) (sz : Nat)
    (u : UploadOutcome) :
    (ttyStep en op false f sz u).2.2 = false ∧
    ∀ p, Event.logUploaded p ∉ (ttyStep en op false f sz u).2.1 := by
  cases en <;> cases op <;> cases u <;> simp [ttyStep]

/-- C4, counterexample: the stdin capture file holds `[1]` and the
digest-named target already exists, yet the emitted events are the
duplicate notice *and* a `cowrie.session.file_download` event — the
`log.msg(eventid='cowrie.session.file_download', ...)` call sits after the
`if`/`else`, inside the `try`, so it also fires when nothing was newly
moved, contrary to the claimed "only a duplicate notice" / "if and only if
newly moved". -/
theorem claim_C4_cex :
    (connectionLost
      { stdinlogOpen := true, stdinlogFile := "cap", downloadPath := "dl",
        redirFiles := [], ttylogEnabled := false, ttylogOpen := false,
        ttylogFile := "t", ttylogSize := 0, minioEnabled := false,
        fs := [("cap", [1]), ("dl/h1", [1])] }
      UploadOutcome.ok).events =
      [Event.duplicateNotice "h1", Event.fileDownload "stdin" "dl/h1" "h1"] ∧
    pathExists [("cap", [1]), ("dl/h1", [1])] "dl/h1" = true := by decide

/-- C4 (amended): when a finalized capture entry's digest-named target
already exists — here both the stdin capture file and a redirect entry —
finalization deletes the temp file and emits the "duplicate, not stored"
notice carrying the digest, but the `cowrie.session.file_download` event is
emitted as well: it fires whenever the capture file existed and its
finalization completed, not only when the file was newly moved into the
store. -/
theorem claim_C4 (s : CLState) (u : UploadOutcome)
    (c1 c2 d1 d2 : List Nat) (rf url : String)
    (h1 : s.stdinlogOpen = true)
    (h2 : FS.lookup s.fs s.stdinlogFile = some c1)
    (h3 : FS.lookup s.fs (pathJoin s.downloadPath (sha256hex c1)) = some d1)
    (h4 : s.redirFiles = [(rf, some url)])
    (h5 : url ≠ "")
    (h6 : FS.lookup s.fs rf = some c2)
    (h7 : c2.length ≠ 0)
    (h8 : FS.lookup s.fs (pathJoin s.downloadPath (sha256hex c2)) = some d2)
    (h9 : rf ≠ s.stdinlogFile)
    (h10 : pathJoin s.downloadPath (sha256hex c2) ≠ s.stdinlogFile)
    (h11 : (s.ttylogEnabled && s.ttylogOpen) = false) :
    (connectionLost s u).events =
      [Event.duplicateNotice (sha256hex c1),
       Event.fileDownload "stdin" (pathJoin s.downloadPath (sha256hex c1))
         (sha256hex c1),
       Event.duplicateNotice (sha256hex c2),
       Event.fileDownload url (pathJoin s.downloadPath (sha256hex c2))
         (sha256hex c2)] ∧
    FS.lookup (connectionLost s u).state.fs s.stdinlogFile = none ∧
    FS.lookup (connectionLost s u).state.fs rf = none ∧
    (connectionLost s u).raised = false := by
  have hst := stdinStep_dup s c1 h1 h2 (by unfold pathExists; rw [h3]; rfl)
  have hl1 : FS.lookup (FS.erase s.fs s.stdinlogFile) rf = some c2 := by
    rw [FS.lookup_erase, if_neg (fun h => h9 h.symm)]
    exact h6
  have hl2 : pathExists (FS.erase s.fs s.stdinlogFile)
      (pathJoin s.downloadPath (sha256hex c2)) = true := by
    unfold pathExists
    rw [FS.lookup_erase, if_neg (fun h => h10 h.symm), h8]
    rfl
  have hrf := redirFinalize_dup s.downloadPath (FS.erase s.fs s.stdinlogFile)
    rf url c2 hl1 h5 h7 hl2
  have htty := ttyStep_off s.ttylogEnabled s.ttylogOpen s.minioEnabled
    s.ttylogFile s.ttylogSize u h11
  rw [connectionLost_eq, hst, h4]
  dsimp only
  rw [redirDrain_cons]
  dsimp only
  rw [hrf]
  dsimp only
  rw [redirDrain_nil, htty]
  refine ⟨by simp, ?_, ?_, rfl⟩
  · show FS.lookup (FS.erase (FS.erase s.fs s.stdinlogFile) rf)
      s.stdinlogFile = none
    rw [FS.lookup_erase, if_neg h9, FS.lookup_erase, if_pos rfl]
  · show FS.lookup (FS.erase (FS.erase s.fs s.stdinlogFile) rf) rf = none
    rw [FS.lookup_erase, if_pos rfl]

/-- C4, witness: both a stdin capture file `[1]` and a redirect file `[2]`
whose digest targets already hold identical content — both temp files are
deleted and four events fire (two duplicate notices, two `file_download`
events). -/
theorem claim_C4_witness :
    (connectionLost
      { stdinlogOpen := true, stdinlogFile := "cap", downloadPath := "dl",
        redirFiles := [("rf", some "u")], ttylogEnabled := false,
        ttylogOpen := false, ttylogFile := "t", ttylogSize := 0,
        minioEnabled := false,
        fs := [("cap", [1]), ("rf", [2]), ("dl/h1", [1]), ("dl/h2", [2])] }
      UploadOutcome.ok).events =
      [Event.duplicateNotice (sha256hex [1]),
       Event.fileDownload "stdin" (pathJoin "dl" (sha256hex [1]))
         (sha256hex [1]),
       Event.duplicateNotice (sha256hex [2]),
       Event.fileDownload "u" (pathJoin "dl" (sha256hex [2]))
         (sha256hex [2])] := by
  have h := claim_C4
    { stdinlogOpen := true, stdinlogFile := "cap", downloadPath := "dl",
      redirFiles := [("rf", some "u")], ttylogEnabled := false,
      ttylogOpen := false, ttylogFile := "t", ttylogSize := 0,
      minioEnabled := false,
      fs := [("cap", [1]), ("rf", [2]), ("dl/h1", [1]), ("dl/h2", [2])] }
    UploadOutcome.ok [1] [2] [1] [2] "rf" "u"
    rfl (by decide) (by decide) rfl (by decide) (by decide) (by decide)
    (by decide) (by decide) (by decide) rfl
  exact h.1

/-- C5, counterexample: an existing but zero-length stdin capture file is
*not* deleted-and-skipped at teardown: it is hashed, moved into the
artifact directory under the empty-content digest, and a
`cowrie.session.file_download` event is emitted — the zero-length check of
`connectionLost` only guards redirect files, contrary to the claim that it
covers "whether it is the stdin capture file or a redirect file". -/
theorem claim_C5_cex :
    (connectionLost
      { stdinlogOpen := true, stdinlogFile := "cap", downloadPath := "dl",
        redirFiles := [], ttylogEnabled := false, ttylogOpen := false,
        ttylogFile := "t", ttylogSize := 0, minioEnabled := false,
        fs := [("cap", [])] }
      UploadOutcome.ok).events =
      [Event.fileDownload "stdin" "dl/h" "h"] ∧
    FS.lookup (connectionLost
      { stdinlogOpen := true, stdinlogFile := "cap", downloadPath := "dl",
        redirFiles := [], ttylogEnabled := false, ttylogOpen := false,
        ttylogFile := "t", ttylogSize := 0, minioEnabled := false,
        fs := [("cap", [])] }
      UploadOutcome.ok).state.fs "dl/h" = some [] := by decide

/-- C5 (amended): the zero-length check applies only to redirect files: a
zero-length redirect file is deleted with nothing stored and no event,
while a zero-length stdin capture file is finalized like any other — it is
hashed, stored in the artifact directory (or deduplicated), and a
`cowrie.session.file_download` event is emitted for it. -/
theorem claim_C5 (s : CLState) (u : UploadOutcome) (rf url : String)
    (h1 : s.stdinlogOpen = true)
    (h2 : FS.lookup s.fs s.stdinlogFile = some [])
    (h3 : FS.lookup s.fs (pathJoin s.downloadPath (sha256hex [])) = none)
    (h4 : s.redirFiles = [(rf, some url)])
    (h6 : FS.lookup s.fs rf = some [])
    (h9 : rf ≠ s.stdinlogFile)
    (h10 : rf ≠ pathJoin s.downloadPath (sha256hex []))
    (h11 : (s.ttylogEnabled && s.ttylogOpen) = false) :
    (connectionLost s u).events =
      [Event.fileDownload "stdin" (pathJoin s.downloadPath (sha256hex []))
        (sha256hex [])] ∧
    FS.lookup (connectionLost s u).state.fs
      (pathJoin s.downloadPath (sha256hex [])) = some [] ∧
    FS.lookup (connectionLost s u).state.fs rf = none ∧
    (connectionLost s u).raised = false := by
  have hst := stdinStep_new s [] h1 h2 (by unfold pathExists; rw [h3]; rfl)
  have hl1 : FS.lookup (FS.write (FS.erase s.fs s.stdinlogFile)
      (pathJoin s.downloadPath (sha256hex [])) []) rf = some [] := by
    rw [FS.lookup_write, if_neg (fun h => h10 h.symm),
      FS.lookup_erase, if_neg (fun h => h9 h.symm)]
    exact h6
  have hrf := redirFinalize_zero s.downloadPath
    (FS.write (FS.erase s.fs s.stdinlogFile)
      (pathJoin s.downloadPath (sha256hex [])) []) rf url hl1
  have htty := ttyStep_off s.ttylogEnabled s.ttylogOpen s.minioEnabled
    s.ttylogFile s.ttylogSize u h11
  rw [connectionLost_eq, hst, h4]
  dsimp only
  rw [redirDrain_cons]
  dsimp only
  rw [hrf]
  dsimp only
  rw [redirDrain_nil, htty]
  refine ⟨by simp, ?_, ?_, rfl⟩
  · show FS.lookup (FS.erase (FS.write (FS.erase s.fs s.stdinlogFile)
        (pathJoin s.downloadPath (sha256hex [])) []) rf)
      (pathJoin s.downloadPath (sha256hex [])) = some []
    rw [FS.lookup_erase, if_neg h10, FS.lookup_write, if_pos rfl]
  · show FS.lookup (FS.erase (FS.write (FS.erase s.fs s.stdinlogFile)
        (pathJoin s.downloadPath (sha256hex [])) []) rf) rf = none
    rw [FS.lookup_erase, if_pos rfl]

/-- C5, witness: a zero-length stdin capture file and a zero-length
redirect file — the redirect file is deleted silently, while the empty
stdin file is stored under the empty-content digest with a `file_download`
event. -/
theorem claim_C5_witness :
    (connectionLost
      { stdinlogOpen := true, stdinlogFile := "cap", downloadPath := "dl",
        redirFiles := [("rf", some "u")], ttylogEnabled := false,
        ttylogOpen := false, ttylogFile := "t", ttylogSize := 0,
        minioEnabled := false, fs := [("cap", []), ("rf", [])] }
      UploadOutcome.ok).events =
      [Event.fileDownload "stdin" (pathJoin "dl" (sha256hex []))
        (sha256hex [])] ∧
    FS.lookup (connectionLost
      { stdinlogOpen := true, stdinlogFile := "cap", downloadPath := "dl",
        redirFiles := [("rf", some "u")], ttylogEnabled := false,
        ttylogOpen := false, ttylogFile := "t", ttylogSize := 0,
        minioEnabled := false, fs := [("cap", []), ("rf", [])] }
      UploadOutcome.ok).state.fs (pathJoin "dl" (sha256hex [])) = some [] ∧
    FS.lookup (connectionLost
      { stdinlogOpen := true, stdinlogFile := "cap", downloadPath := "dl",
        redirFiles := [("rf", some "u")], ttylogEnabled := false,
        ttylogOpen := false, ttylogFile := "t", ttylogSize := 0,
        minioEnabled := false, fs := [("cap", []), ("rf", [])] }
      UploadOutcome.ok).state.fs "rf" = none ∧
    (connectionLost
      { stdinlogOpen := true, stdinlogFile := "cap", downloadPath := "dl",
        redirFiles := [("rf", some "u")], ttylogEnabled := false,
        ttylogOpen := false, ttylogFile := "t", ttylogSize := 0,
        minioEnabled := false, fs := [("cap", []), ("rf", [])] }
      UploadOutcome.ok).raised = false := by
  exact claim_C5
    { stdinlogOpen := true, stdinlogFile := "cap", downloadPath := "dl",
      redirFiles := [("rf", some "u")], ttylogEnabled := false,
      ttylogOpen := false, ttylogFile := "t", ttylogSize := 0,
      minioEnabled := false, fs := [("cap", []), ("rf", [])] }
    UploadOutcome.ok "rf" "u"
    rfl (by decide) (by decide) rfl (by decide) (by decide) (by decide) rfl

/-- C10 (confirmed): if any of the six minio configuration reads or the
`Minio` client construction raises during `__init__`, the bare `except`
leaves `minioEnabled = False`; a session carrying that flag never emits a
`cowrie.log.uploaded` event during teardown and its teardown never raises,
whatever the upload outcome would have been. -/
theorem claim_C10 (r : MinioReads) (s : CLState) (u : UploadOutcome)
    (p : String)
    (hfail : r.minio = none ∨ r.server = none ∨ r.accessKey = none ∨
      r.secret = none ∨ r.bucket = none ∨ r.useSsl = none ∨
      r.clientBuilt = none)
    (hs : s.minioEnabled = initMinioEnabled r) :
    initMinioEnabled r = false ∧
    Event.logUploaded p ∉ (connectionLost s u).events ∧
    (connectionLost s u).raised = false := by
  have hinit : initMinioEnabled r = false := by
    obtain ⟨m, sv, ak, sec, bk, ssl, cb⟩ := r
    cases m <;> cases sv <;> cases ak <;> cases sec <;> cases bk <;>
      cases ssl <;> cases cb <;> simp_all [initMinioEnabled]
  have hme : s.minioEnabled = false := by rw [hs, hinit]
  refine ⟨hinit, ?_, ?_⟩
  · rw [connectionLost_eq]
    intro hmem
    rcases List.mem_append.mp hmem with hmem | hmem
    · rcases List.mem_append.mp hmem with hmem | hmem
      · exact logUploaded_notin_stdinStep s p hmem
      · exact logUploaded_notin_redirDrain s.downloadPath (stdinStep s).1
          s.redirFiles p hmem
    · rw [hme] at hmem
      exact (ttyStep_minio_false s.ttylogEnabled s.ttylogOpen s.ttylogFile
        s.ttylogSize u).2 p hmem
  · rw [connectionLost_eq]
    dsimp only
    rw [hme]
    exact (ttyStep_minio_false s.ttylogEnabled s.ttylogOpen s.ttylogFile
      s.ttylogSize u).1

/-- C10, witness: the `minio_server` read raises while the ttylog is open —
`minioEnabled` defaults to `False`, and the teardown closes the log without
attempting (or failing) an upload. -/
theorem claim_C10_witness :
    initMinioEnabled
      { minio := some true, server := none, accessKey := some "k",
        secret := some "s", bucket := some "b", useSsl := some false,
        clientBuilt := some () } = false ∧
    Event.logUploaded "tl" ∉ (connectionLost
      { stdinlogOpen := false, stdinlogFile := "cap", downloadPath := "dl",
        redirFiles := [], ttylogEnabled := true, ttylogOpen := true,
        ttylogFile := "tl", ttylogSize := 3, minioEnabled := false, fs := [] }
      UploadOutcome.otherError).events ∧
    (connectionLost
      { stdinlogOpen := false, stdinlogFile := "cap", downloadPath := "dl",
        redirFiles := [], ttylogEnabled := true, ttylogOpen := true,
        ttylogFile := "tl", ttylogSize := 3, minioEnabled := false, fs := [] }
      UploadOutcome.otherError).raised = false := by
  exact claim_C10
    { minio := some true, server := none, accessKey := some "k",
      secret := some "s", bucket := some "b", useSsl := some false,
      clientBuilt := some () }
    { stdinlogOpen := false, stdinlogFile := "cap", downloadPath := "dl",
      redirFiles := [], ttylogEnabled := true, ttylogOpen := true,
      ttylogFile := "tl", ttylogSize := 3, minioEnabled := false, fs := [] }
    UploadOutcome.otherError "tl"
    (Or.inr (Or.inl rfl)) rfl

end Cowrie
